import Mathlib

/-!
# Verification of the rotating-hexagon-ball physics core

Shallow embedding of `rotating_hexagon_ball.py` over the reals.
`pygame.Vector2` becomes the two-field structure `Vec2`; the module-level
constants become Lean constants of the same names; the body of the main
loop (event draining, drag override or free integration, rotation-angle
update, collision resolution) becomes the pure state-transition function
`advance`.  Gravity and the angular speed are passed as parameters so that
claims of the form "independent of the gravity configuration" and
"with `angular_speed = 0`" can be stated; the canonical instantiation uses
the constants `GRAVITY` and `ANGULAR_SPEED` from the source.
-/

noncomputable section

/-- 2-d vector over the reals, modelling `pygame.Vector2` by value. -/
@[ext]
structure Vec2 where
  x : ℝ
  y : ℝ
deriving Inhabited

instance : Add Vec2 := ⟨fun v w => ⟨v.x + w.x, v.y + w.y⟩⟩
instance : Sub Vec2 := ⟨fun v w => ⟨v.x - w.x, v.y - w.y⟩⟩
instance : Neg Vec2 := ⟨fun v => ⟨-v.x, -v.y⟩⟩
instance : Zero Vec2 := ⟨⟨0, 0⟩⟩
instance : HMul Vec2 ℝ Vec2 := ⟨fun v r => ⟨v.x * r, v.y * r⟩⟩
instance : HMul ℝ Vec2 Vec2 := ⟨fun r v => ⟨r * v.x, r * v.y⟩⟩
instance : HDiv Vec2 ℝ Vec2 := ⟨fun v r => ⟨v.x / r, v.y / r⟩⟩
instance : SMul ℝ Vec2 := ⟨fun r v => ⟨r * v.x, r * v.y⟩⟩

/-- Dot product, `pygame.Vector2.dot`. -/
def Vec2.dot (v w : Vec2) : ℝ := v.x * w.x + v.y * w.y

/-- Squared length, `pygame.Vector2.length_squared`. -/
def Vec2.lengthSq (v : Vec2) : ℝ := v.x * v.x + v.y * v.y

/-- Length, `pygame.Vector2.length`. -/
def Vec2.length (v : Vec2) : ℝ := Real.sqrt v.lengthSq

/-- Normalization, `pygame.Vector2.normalize`: divide both components by the length. -/
def Vec2.normalize (v : Vec2) : Vec2 := v / v.length

/- Module-level constants of the source (lines 20-29). -/

def WIDTH : ℝ := 900
def HEIGHT : ℝ := 700
def GRAVITY : Vec2 := ⟨0, 900⟩
def BALL_RADIUS : ℝ := 18
def BALL_MASS : ℝ := 1.0
def RESTITUTION : ℝ := 0.85
def FRICTION : ℝ := 0.2
def HEX_RADIUS : ℝ := 240
def HEX_CENTER : Vec2 := ⟨450, 350⟩
/-- Value of `math.radians(25)`. -/
def ANGULAR_SPEED : ℝ := 25 * Real.pi / 180

/-- The ball entity (source lines 32-41). -/
structure Ball where
  pos : Vec2
  vel : Vec2

/-- Force application, `Ball.apply_force` (source lines 37-38): `self.vel += (force / BALL_MASS) * dt`. -/
def Ball.apply_force (b : Ball) (force : Vec2) (dt : ℝ) : Ball :=
  { b with vel := b.vel + (force / BALL_MASS) * dt }

/-- Position integration, `Ball.integrate` (source lines 40-41): `self.pos += self.vel * dt`. -/
def Ball.integrate (b : Ball) (dt : ℝ) : Ball :=
  { b with pos := b.pos + b.vel * dt }

/-- The drag state (source lines 44-49). -/
structure DragState where
  active : Bool
  grab_offset : Vec2
  last_mouse : Vec2
  throw_vel : Vec2

/-- Reset of the drag state, `DragState.reset` (source lines 51-54): clears the active flag and zeroes
`grab_offset` and `throw_vel` in place; `last_mouse` is left unchanged. -/
def DragState.reset (d : DragState) : DragState :=
  { d with active := false, grab_offset := ⟨0, 0⟩, throw_vel := ⟨0, 0⟩ }

/-- Geometry provider `hexagon_vertices` (source lines 57-65): six vertices at angles
`angle + i * tau / 6` around `center` at distance `radius`. -/
def hexagon_vertices (center : Vec2) (radius : ℝ) (angle : ℝ) : List Vec2 :=
  (List.range 6).map fun i =>
    ⟨center.x + radius * Real.cos (angle + (i * (2 * Real.pi)) / 6),
     center.y + radius * Real.sin (angle + (i * (2 * Real.pi)) / 6)⟩

/-- The unit normal actually used for an edge `a -> b` by `resolve_collision`
(source lines 73-82): perpendicular of the edge, normalized, then negated if
it does not point toward `HEX_CENTER`. -/
def orientedNormal (a b : Vec2) : Vec2 :=
  let edge := b - a
  let n := Vec2.normalize ⟨-edge.y, edge.x⟩
  if n.dot (HEX_CENTER - (a + b) * (0.5 : ℝ)) < 0 then -n else n

/-- Signed distance of a point `p` from the edge line along the oriented
normal (source line 85): `dist = (ball.pos - a).dot(normal)`. -/
def edgeDist (a b p : Vec2) : ℝ := (p - a).dot (orientedNormal a b)

/-- Velocity of the rotating wall at a contact point (source lines 93-94):
`(-angular_speed * radial.y, angular_speed * radial.x)` with
`radial = wall_point - HEX_CENTER`. -/
def wallVelocity (ω : ℝ) (wall_point : Vec2) : Vec2 :=
  ⟨-ω * (wall_point - HEX_CENTER).y, ω * (wall_point - HEX_CENTER).x⟩

/-- Body of the edge loop of `resolve_collision` (source lines 70-106) for one
edge `a -> b`.  A zero-length edge is skipped before normalization (line 75-76).
Otherwise the oriented unit normal and the signed distance are computed; if the
penetration is positive the ball is pushed out along the normal, and if the
relative normal velocity is negative a restitution impulse and a tangential
friction impulse are applied.  The wall velocity is evaluated at the
post-correction ball position, as in the source (line 92). -/
def resolve_edge (ω : ℝ) (ball : Ball) (a b : Vec2) : Ball :=
  let edge := b - a
  if Vec2.lengthSq ⟨-edge.y, edge.x⟩ = 0 then ball
  else
    let normal := orientedNormal a b
    let dist := edgeDist a b ball.pos
    let penetration := BALL_RADIUS - dist
    if 0 < penetration then
      let pos' := ball.pos + normal * penetration
      let rel_vel := ball.vel - wallVelocity ω pos'
      let vn := rel_vel.dot normal
      if vn < 0 then
        let tangent : Vec2 := ⟨-normal.y, normal.x⟩
        let vt := rel_vel.dot tangent
        { pos := pos',
          vel := ball.vel - ((1 + RESTITUTION) * vn) * normal + (-vt * FRICTION) * tangent }
      else
        { ball with pos := pos' }
    else ball

/-- Collision resolution `resolve_collision` (source lines 68-106): fold of `resolve_edge` over the
six edges `(vertices[i], vertices[(i+1) % 6])` in index order.  The `angle` and
`dt` parameters are accepted and ignored exactly as in the source signature. -/
def resolve_collision (ω : ℝ) (ball : Ball) (vertices : List Vec2)
    (_angle _dt : ℝ) : Ball :=
  (List.range 6).foldl
    (fun b i => resolve_edge ω b (vertices.getD i 0) (vertices.getD ((i + 1) % 6) 0))
    ball

/-- The two pointer events the event loop reacts to (source lines 127-137).
A pointer move is not an event in the source: while dragging, the current
mouse position is polled each tick (line 140), so `advance` takes it as a
separate argument. -/
inductive InputEvent where
  | pointerDown (pos : Vec2)
  | pointerUp

/-- Handling of one pointer event (source lines 127-137).

For `pointerDown` within `BALL_RADIUS + 4` of the ball the drag becomes
active, recording the grab offset and the mouse position and zeroing the
throw velocity.

For `pointerUp`, the source executes `ball.vel = drag.throw_vel` (line 136)
when the drag is active and then `drag.reset()` (line 137) unconditionally.
The assignment on line 136 binds `ball.vel` to the very same mutable
`pygame.Vector2` object as `drag.throw_vel`; `reset` then runs
`self.throw_vel.update(0, 0)` (line 54), an in-place mutation of that shared
object.  Consequently the observable value of `ball.vel` after the handler is
`(0, 0)`, not the previously computed throw velocity.  The embedding records
this net effect. -/
def handle_event (p : Ball × DragState) (e : InputEvent) : Ball × DragState :=
  match e with
  | .pointerDown mouse =>
      if (mouse - p.1.pos).length ≤ BALL_RADIUS + 4 then
        (p.1, { active := true, grab_offset := p.1.pos - mouse,
                last_mouse := mouse, throw_vel := ⟨0, 0⟩ })
      else p
  | .pointerUp =>
      if p.2.active then
        ({ p.1 with vel := ⟨0, 0⟩ }, p.2.reset)
      else
        (p.1, p.2.reset)

/-- Whole simulation state owned by the main loop. -/
structure SimState where
  ball : Ball
  drag : DragState
  angle : ℝ

/-- One iteration of the main loop (source lines 120-150), with gravity `g`
and angular speed `ω` as explicit configuration: drain the pointer events in
order, then either override the ball from the mouse (drag active, lines
139-143) or integrate gravity (lines 144-146), then advance the rotation angle
(line 148), recompute the vertices (line 149) and resolve collisions
(line 150).  `mouse` is the value `pygame.mouse.get_pos()` would return this
tick. -/
def advance (g : Vec2) (ω : ℝ) (s : SimState) (dt : ℝ) (events : List InputEvent)
    (mouse : Vec2) : SimState :=
  let p := events.foldl handle_event (s.ball, s.drag)
  let bd : Ball × DragState :=
    if p.2.active then
      ({ p.1 with pos := mouse + p.2.grab_offset },
       { p.2 with throw_vel := (mouse - p.2.last_mouse) / max dt 1e-6,
                  last_mouse := mouse })
    else
      ((p.1.apply_force g dt).integrate dt, p.2)
  let angle := s.angle + ω * dt
  let vertices := hexagon_vertices HEX_CENTER HEX_RADIUS angle
  { ball := resolve_collision ω bd.1 vertices angle dt, drag := bd.2, angle := angle }

/-- Post-correction ball position for a penetrating edge (source line 89). -/
def pushedPos (ball : Ball) (a b : Vec2) : Vec2 :=
  ball.pos + orientedNormal a b * (BALL_RADIUS - edgeDist a b ball.pos)

/-- Normal component of the ball velocity relative to the moving wall,
evaluated as the source does on lines 92-97. -/
def relNormalVel (ω : ℝ) (ball : Ball) (a b : Vec2) : ℝ :=
  (ball.vel - wallVelocity ω (pushedPos ball a b)).dot (orientedNormal a b)

/-- The tangent used for friction (source line 103): the oriented normal
rotated by 90 degrees. -/
def tangentOf (a b : Vec2) : Vec2 :=
  ⟨-(orientedNormal a b).y, (orientedNormal a b).x⟩

/-- Unit vector at a given polar angle. -/
def dirVec (φ : ℝ) : Vec2 := ⟨Real.cos φ, Real.sin φ⟩

/-- Rotation by sixty degrees about the origin. -/
def rotate60 (v : Vec2) : Vec2 :=
  ⟨Real.cos (Real.pi / 3) * v.x - Real.sin (Real.pi / 3) * v.y,
   Real.sin (Real.pi / 3) * v.x + Real.cos (Real.pi / 3) * v.y⟩

/-- A concrete six-entry vertex list (an axis-aligned rectangle traversed with
two degenerate edges), used to instantiate theorems about
`resolve_collision` at rational coordinates. -/
def rectVerts : List Vec2 :=
  [⟨250, 150⟩, ⟨250, 150⟩, ⟨650, 150⟩, ⟨650, 550⟩, ⟨650, 550⟩, ⟨250, 550⟩]

/-! ## Componentwise arithmetic lemmas for the vector embedding -/

@[simp] theorem Vec2.add_x (v w : Vec2) : (v + w).x = v.x + w.x := rfl

@[simp] theorem Vec2.add_y (v w : Vec2) : (v + w).y = v.y + w.y := rfl

@[simp] theorem Vec2.sub_x (v w : Vec2) : (v - w).x = v.x - w.x := rfl

@[simp] theorem Vec2.sub_y (v w : Vec2) : (v - w).y = v.y - w.y := rfl

@[simp] theorem Vec2.neg_x (v : Vec2) : (-v).x = -v.x := rfl

@[simp] theorem Vec2.neg_y (v : Vec2) : (-v).y = -v.y := rfl

@[simp] theorem Vec2.zero_x : (0 : Vec2).x = 0 := rfl

@[simp] theorem Vec2.zero_y : (0 : Vec2).y = 0 := rfl

@[simp] theorem Vec2.mulR_x (v : Vec2) (r : ℝ) : (v * r).x = v.x * r := rfl

@[simp] theorem Vec2.mulR_y (v : Vec2) (r : ℝ) : (v * r).y = v.y * r := rfl

@[simp] theorem Vec2.mulL_x (r : ℝ) (v : Vec2) : (r * v).x = r * v.x := rfl

@[simp] theorem Vec2.mulL_y (r : ℝ) (v : Vec2) : (r * v).y = r * v.y := rfl

@[simp] theorem Vec2.divR_x (v : Vec2) (r : ℝ) : (v / r).x = v.x / r := rfl

@[simp] theorem Vec2.divR_y (v : Vec2) (r : ℝ) : (v / r).y = v.y / r := rfl

@[simp] theorem Vec2.smul_x (r : ℝ) (v : Vec2) : (r • v).x = r * v.x := rfl

@[simp] theorem Vec2.smul_y (r : ℝ) (v : Vec2) : (r • v).y = r * v.y := rfl

theorem Vec2.neg_dot (v w : Vec2) : (-v).dot w = -(v.dot w) := by
  simp [Vec2.dot]; ring

theorem Vec2.sub_dot (u v w : Vec2) : (u - v).dot w = u.dot w - v.dot w := by
  simp [Vec2.dot]; ring

theorem Vec2.add_dot (u v w : Vec2) : (u + v).dot w = u.dot w + v.dot w := by
  simp [Vec2.dot]; ring

theorem Vec2.mulL_dot (r : ℝ) (v w : Vec2) : (r * v).dot w = r * (v.dot w) := by
  simp [Vec2.dot]; ring

theorem Vec2.mulR_dot (r : ℝ) (v w : Vec2) : (v * r).dot w = (v.dot w) * r := by
  simp [Vec2.dot]; ring

/-- The oriented normal of a nondegenerate edge is a unit vector. -/
theorem orientedNormal_unit (a b : Vec2)
    (hnd : Vec2.lengthSq ⟨-(b - a).y, (b - a).x⟩ ≠ 0) :
    (orientedNormal a b).dot (orientedNormal a b) = 1 := by
  have hsq : (0:ℝ) ≤ Vec2.lengthSq ⟨-(b - a).y, (b - a).x⟩ := by
    simp only [Vec2.lengthSq]
    nlinarith [mul_self_nonneg (-(b - a).y), mul_self_nonneg ((b - a).x)]
  have hpos : (0:ℝ) < Vec2.lengthSq ⟨-(b - a).y, (b - a).x⟩ := lt_of_le_of_ne hsq (Ne.symm hnd)
  have hsqrt : Real.sqrt (Vec2.lengthSq ⟨-(b - a).y, (b - a).x⟩) ^ 2
      = Vec2.lengthSq ⟨-(b - a).y, (b - a).x⟩ := Real.sq_sqrt hsq
  have key : (Vec2.normalize ⟨-(b - a).y, (b - a).x⟩).dot
      (Vec2.normalize ⟨-(b - a).y, (b - a).x⟩) = 1 := by
    simp only [Vec2.normalize, Vec2.length, Vec2.dot, Vec2.divR_x, Vec2.divR_y]
    rw [div_mul_div_comm, div_mul_div_comm, div_add_div_same]
    rw [show Real.sqrt (Vec2.lengthSq ⟨-(b - a).y, (b - a).x⟩) *
          Real.sqrt (Vec2.lengthSq ⟨-(b - a).y, (b - a).x⟩)
        = Vec2.lengthSq ⟨-(b - a).y, (b - a).x⟩ by
      rw [← sq]; exact hsqrt]
    rw [div_eq_one_iff_eq hnd]
    simp [Vec2.lengthSq]
  unfold orientedNormal
  by_cases hc :
      (Vec2.normalize ⟨-(b - a).y, (b - a).x⟩).dot
        (HEX_CENTER - (a + b) * (0.5 : ℝ)) < 0
  · simp only [hc, if_true]
    simp only [Vec2.dot, Vec2.neg_x, Vec2.neg_y] at key ⊢
    nlinarith [key]
  · simp only [hc, if_false]
    exact key

/-- Normalization divides by the square root of the squared length. -/
theorem normalize_of_lengthSq (v : Vec2) (r : ℝ) (hr : 0 < r)
    (h : Vec2.lengthSq v = r ^ 2) : Vec2.normalize v = v / r := by
  simp only [Vec2.normalize, Vec2.length, h, Real.sqrt_sq hr.le]

/-- Unfolding of `resolve_edge` on a nondegenerate edge, phrased with the
named fragments of the computation. -/
theorem resolve_edge_nondeg_eval (ω : ℝ) (ball : Ball) (a b : Vec2)
    (hnd : Vec2.lengthSq ⟨-(b - a).y, (b - a).x⟩ ≠ 0) :
    resolve_edge ω ball a b =
      if 0 < BALL_RADIUS - edgeDist a b ball.pos then
        if relNormalVel ω ball a b < 0 then
          { pos := pushedPos ball a b,
            vel := ball.vel
              - ((1 + RESTITUTION) * relNormalVel ω ball a b) * orientedNormal a b
              + (-((ball.vel - wallVelocity ω (pushedPos ball a b)).dot (tangentOf a b))
                  * FRICTION) * tangentOf a b }
        else { ball with pos := pushedPos ball a b }
      else ball := by
  simp only [resolve_edge, pushedPos, relNormalVel, tangentOf]
  rw [if_neg hnd]

/-- The friction tangent is orthogonal to the oriented normal. -/
theorem tangent_dot_normal (a b : Vec2) :
    (tangentOf a b).dot (orientedNormal a b) = 0 := by
  simp [tangentOf, Vec2.dot]; ring

/-- The wall of a non-rotating container is at rest. -/
theorem wallVelocity_zero (p : Vec2) : wallVelocity 0 p = ⟨0, 0⟩ := by
  simp [wallVelocity]

/-! ## C8: a zero time step is a no-op integration step -/

/-- C8: for every ball state, the free-motion integration step called with
`dt = 0` is the identity on both velocity and position. -/
theorem integration_dt_zero_noop (b : Ball) (f : Vec2) :
    (b.apply_force f 0).integrate 0 = b := by
  cases b with
  | mk pos vel =>
    simp only [Ball.apply_force, Ball.integrate]
    congr 1 <;> ext <;> simp

/-! ## C1: the throw velocity is destroyed on release (code bug)

The spec requires that on pointer-up the ball's velocity equal the last
computed throw velocity.  In the source, line 136 (`ball.vel =
drag.throw_vel`) makes `ball.vel` an alias of the `drag.throw_vel` object and
line 137 (`drag.reset()`) zeroes that object in place, so the released ball's
velocity is always `(0, 0)`.  The module docstring promises "release to
throw", so the code contradicts its own documentation. -/

/-- C1 (code bug evaluation): releasing a held ball whose computed throw
velocity is `(600, 0)` leaves the ball with velocity `(0, 0)`, not
`(600, 0)`. -/
theorem pointer_up_release_zeroes_ball_velocity :
    (handle_event (⟨⟨310, 300⟩, ⟨0, 0⟩⟩,
        ⟨true, ⟨0, 0⟩, ⟨310, 300⟩, ⟨600, 0⟩⟩) InputEvent.pointerUp).1.vel = ⟨0, 0⟩ ∧
    ((⟨600, 0⟩ : Vec2) ≠ ⟨0, 0⟩) := by
  constructor
  · rfl
  · intro h
    have : (600 : ℝ) = 0 := congrArg Vec2.x h
    norm_num at this

/-! ## C10: pointer-up with no active grab only resets the drag state -/

/-- C10: if a pointer-up event arrives while the drag is not active, the ball
is unchanged and the drag state is merely reset: inactive, zero offset, zero
throw velocity (the recorded last mouse position is left as it was). -/
theorem pointer_up_free_state_frame (b : Ball) (d : DragState)
    (h : d.active = false) :
    handle_event (b, d) InputEvent.pointerUp
      = (b, ⟨false, ⟨0, 0⟩, d.last_mouse, ⟨0, 0⟩⟩) := by
  simp only [handle_event, h, Bool.false_eq_true, if_false]
  rfl

/-- Witness for C10 at a concrete inactive drag state. -/
theorem pointer_up_free_state_frame_witness :
    (⟨false, ⟨3, 4⟩, ⟨7, 8⟩, ⟨5, 6⟩⟩ : DragState).active = false ∧
    handle_event (⟨⟨100, 200⟩, ⟨30, 40⟩⟩, ⟨false, ⟨3, 4⟩, ⟨7, 8⟩, ⟨5, 6⟩⟩)
        InputEvent.pointerUp
      = (⟨⟨100, 200⟩, ⟨30, 40⟩⟩, ⟨false, ⟨0, 0⟩, ⟨7, 8⟩, ⟨0, 0⟩⟩) :=
  ⟨rfl, pointer_up_free_state_frame ⟨⟨100, 200⟩, ⟨30, 40⟩⟩
    ⟨false, ⟨3, 4⟩, ⟨7, 8⟩, ⟨5, 6⟩⟩ rfl⟩

/-! ## C7: the normal used by collision resolution points inward -/

/-- C7: for a non-degenerate edge whose midpoint differs from the container
center, the unit normal actually used for distance, correction and impulses
has non-negative dot product with the vector from the edge midpoint to the
container center. -/
theorem oriented_normal_points_inward (a b : Vec2)
    (hnd : Vec2.lengthSq ⟨-(b - a).y, (b - a).x⟩ ≠ 0)
    (hmid : (a + b) * (0.5 : ℝ) ≠ HEX_CENTER) :
    0 ≤ (orientedNormal a b).dot (HEX_CENTER - (a + b) * (0.5 : ℝ)) := by
  unfold orientedNormal
  by_cases hc :
      (Vec2.normalize ⟨-(b - a).y, (b - a).x⟩).dot
        (HEX_CENTER - (a + b) * (0.5 : ℝ)) < 0
  · simp only [hc, if_true, Vec2.neg_dot]
    linarith
  · simp only [hc, if_false]
    linarith [not_lt.mp hc]

/-- Witness for C7 on the horizontal edge from `(250, 150)` to `(650, 150)`. -/
theorem oriented_normal_points_inward_witness :
    Vec2.lengthSq ⟨-((⟨650, 150⟩ : Vec2) - ⟨250, 150⟩).y,
        ((⟨650, 150⟩ : Vec2) - ⟨250, 150⟩).x⟩ ≠ 0 ∧
    ((⟨250, 150⟩ : Vec2) + ⟨650, 150⟩) * (0.5 : ℝ) ≠ HEX_CENTER ∧
    0 ≤ (orientedNormal ⟨250, 150⟩ ⟨650, 150⟩).dot
        (HEX_CENTER - ((⟨250, 150⟩ : Vec2) + ⟨650, 150⟩) * (0.5 : ℝ)) := by
  have h1 : Vec2.lengthSq ⟨-((⟨650, 150⟩ : Vec2) - ⟨250, 150⟩).y,
      ((⟨650, 150⟩ : Vec2) - ⟨250, 150⟩).x⟩ ≠ 0 := by
    simp [Vec2.lengthSq]
    norm_num
  have h2 : ((⟨250, 150⟩ : Vec2) + ⟨650, 150⟩) * (0.5 : ℝ) ≠ HEX_CENTER := by
    intro h
    have : ((250:ℝ) + 650) * 0.5 = 450 ∧ ((150:ℝ) + 150) * 0.5 = 350 := by
      constructor
      · exact congrArg Vec2.x h
      · exact congrArg Vec2.y h
    norm_num at this
  exact ⟨h1, h2, oriented_normal_points_inward ⟨250, 150⟩ ⟨650, 150⟩ h1 h2⟩

/-! ## C9: degenerate edges are skipped before normalization -/

/-- A zero-length edge is skipped: the ball passes through unchanged, and no
normalization (division by a length) is performed on it. -/
theorem resolve_edge_degenerate (ω : ℝ) (ball : Ball) (p : Vec2) :
    resolve_edge ω ball p p = ball := by
  have h : Vec2.lengthSq ⟨-(p - p).y, (p - p).x⟩ = 0 := by
    simp [Vec2.lengthSq]
  simp only [resolve_edge, h]
  simp

/-- C9: collision resolution is total on degenerate vertex lists: with all six
vertices equal every edge has zero length, each is skipped before the
normalization step, and the ball is returned unchanged. -/
theorem degenerate_edges_skipped (ω : ℝ) (ball : Ball) (p : Vec2)
    (ang dt : ℝ) :
    resolve_collision ω ball (List.replicate 6 p) ang dt = ball ∧
    resolve_edge ω ball p p = ball := by
  constructor
  · show resolve_edge ω (resolve_edge ω (resolve_edge ω (resolve_edge ω
        (resolve_edge ω (resolve_edge ω ball p p) p p) p p) p p) p p) p p = ball
    simp only [resolve_edge_degenerate]
  · exact resolve_edge_degenerate ω ball p

/-! ## C4: restitution impulse, applied only on approach -/

/-- C4: when the ball penetrates a nondegenerate edge, the velocity impulse
`ball.velocity -= (1 + restitution) * vn * normal` (plus the friction impulse)
is applied exactly when the relative normal velocity `vn` is negative; when
`vn >= 0` (separating) the velocity is untouched.  With a stationary wall
(`angular_speed = 0`) and `vn = -100`, the post-resolution normal velocity
component is `+85 = 0.85 * 100`. -/
theorem restitution_impulse_on_approach (ω : ℝ) (ball : Ball) (a b : Vec2)
    (hnd : Vec2.lengthSq ⟨-(b - a).y, (b - a).x⟩ ≠ 0)
    (hpen : 0 < BALL_RADIUS - edgeDist a b ball.pos) :
    (0 ≤ relNormalVel ω ball a b → (resolve_edge ω ball a b).vel = ball.vel) ∧
    (relNormalVel ω ball a b < 0 →
      (resolve_edge ω ball a b).vel
        = ball.vel - ((1 + RESTITUTION) * relNormalVel ω ball a b) * orientedNormal a b
          + (-((ball.vel - wallVelocity ω (pushedPos ball a b)).dot (tangentOf a b))
              * FRICTION) * tangentOf a b) ∧
    (ω = 0 → relNormalVel ω ball a b = -100 →
      ((resolve_edge ω ball a b).vel).dot (orientedNormal a b) = 85) := by
  rw [resolve_edge_nondeg_eval ω ball a b hnd]
  rw [if_pos hpen]
  refine ⟨?_, ?_, ?_⟩
  · intro h0
    rw [if_neg (not_lt.mpr h0)]
  · intro hlt
    rw [if_pos hlt]
  · intro hω hvn
    subst hω
    have hlt : relNormalVel 0 ball a b < 0 := by rw [hvn]; norm_num
    rw [if_pos hlt]
    have hn1 : (orientedNormal a b).dot (orientedNormal a b) = 1 :=
      orientedNormal_unit a b hnd
    have hveln : ball.vel.dot (orientedNormal a b) = -100 := by
      have := hvn
      rw [relNormalVel, wallVelocity_zero, Vec2.sub_dot] at this
      have hz : (⟨0, 0⟩ : Vec2).dot (orientedNormal a b) = 0 := by
        simp [Vec2.dot]
      rw [hz] at this
      linarith
    rw [Vec2.add_dot, Vec2.sub_dot, Vec2.mulL_dot, Vec2.mulL_dot,
      tangent_dot_normal, hn1, hveln, hvn]
    rw [RESTITUTION]
    norm_num

/-- The oriented normal of the horizontal edge from `(250, 150)` to
`(650, 150)` is the upward unit vector (toward the container center). -/
theorem orientedNormal_bottom :
    orientedNormal ⟨250, 150⟩ ⟨650, 150⟩ = ⟨0, 1⟩ := by
  have h : Vec2.lengthSq ⟨-(((⟨650, 150⟩ : Vec2) - ⟨250, 150⟩).y),
      ((⟨650, 150⟩ : Vec2) - ⟨250, 150⟩).x⟩ = 400 ^ 2 := by
    simp [Vec2.lengthSq]
    norm_num
  simp only [orientedNormal]
  rw [normalize_of_lengthSq _ 400 (by norm_num) h]
  have hv : ((⟨-(((⟨650, 150⟩ : Vec2) - ⟨250, 150⟩).y),
      ((⟨650, 150⟩ : Vec2) - ⟨250, 150⟩).x⟩ : Vec2) / (400 : ℝ)) = ⟨0, 1⟩ := by
    ext <;> simp <;> norm_num
  rw [hv]
  rw [if_neg]
  simp [Vec2.dot, HEX_CENTER]
  norm_num

/-! ## Geometry of the rotated regular hexagon -/

theorem sqrt3_bounds : 1.7 < Real.sqrt 3 ∧ Real.sqrt 3 < 1.8 := by
  constructor
  · rw [show (1.7 : ℝ) = Real.sqrt (1.7 ^ 2) from (Real.sqrt_sq (by norm_num)).symm]
    exact Real.sqrt_lt_sqrt (by norm_num) (by norm_num)
  · rw [show (1.8 : ℝ) = Real.sqrt (1.8 ^ 2) from (Real.sqrt_sq (by norm_num)).symm]
    exact Real.sqrt_lt_sqrt (by norm_num) (by norm_num)

/-- The perpendicular of a hexagon edge spanning sixty degrees at circumradius
`R` has squared length `R ^ 2`. -/
theorem hex_edge_lengthSq (R θ : ℝ) :
    Vec2.lengthSq
      ⟨-(((HEX_CENTER + R • dirVec (θ + Real.pi / 3)) - (HEX_CENTER + R • dirVec θ)).y),
       ((HEX_CENTER + R • dirVec (θ + Real.pi / 3)) - (HEX_CENTER + R • dirVec θ)).x⟩
      = R ^ 2 := by
  have hsc := Real.sin_sq_add_cos_sq θ
  have hw : Real.sqrt 3 ^ 2 = 3 := Real.sq_sqrt (by norm_num)
  simp only [Vec2.lengthSq, dirVec, Vec2.add_x, Vec2.add_y, Vec2.sub_x, Vec2.sub_y,
    Vec2.smul_x, Vec2.smul_y, Real.cos_add, Real.sin_add, Real.cos_pi_div_three,
    Real.sin_pi_div_three]
  linear_combination (R ^ 2 * (1 + Real.sqrt 3 ^ 2) / 4) * hsc + (R ^ 2 / 4) * hw

/-- The oriented unit normal of the hexagon edge from polar angle `θ` to
`θ + π/3` is the inward direction `-dirVec (θ + π/6)`. -/
theorem hex_orientedNormal (R θ : ℝ) (hR : 0 < R) :
    orientedNormal (HEX_CENTER + R • dirVec θ) (HEX_CENTER + R • dirVec (θ + Real.pi / 3))
      = -dirVec (θ + Real.pi / 6) := by
  have hsc := Real.sin_sq_add_cos_sq θ
  have hlen := hex_edge_lengthSq R θ
  simp only [orientedNormal]
  rw [normalize_of_lengthSq _ R hR hlen]
  have hpre : ((⟨-(((HEX_CENTER + R • dirVec (θ + Real.pi / 3))
        - (HEX_CENTER + R • dirVec θ)).y),
      ((HEX_CENTER + R • dirVec (θ + Real.pi / 3))
        - (HEX_CENTER + R • dirVec θ)).x⟩ : Vec2) / R)
      = -dirVec (θ + Real.pi / 6) := by
    ext
    · simp only [Vec2.divR_x, Vec2.neg_x, Vec2.add_x, Vec2.add_y, Vec2.sub_x, Vec2.sub_y,
        Vec2.smul_x, Vec2.smul_y, dirVec, Real.cos_add, Real.sin_add,
        Real.cos_pi_div_three, Real.sin_pi_div_three, Real.cos_pi_div_six,
        Real.sin_pi_div_six]
      rw [div_eq_iff (ne_of_gt hR)]
      ring
    · simp only [Vec2.divR_y, Vec2.neg_y, Vec2.add_x, Vec2.add_y, Vec2.sub_x, Vec2.sub_y,
        Vec2.smul_x, Vec2.smul_y, dirVec, Real.cos_add, Real.sin_add,
        Real.cos_pi_div_three, Real.sin_pi_div_three, Real.cos_pi_div_six,
        Real.sin_pi_div_six]
      rw [div_eq_iff (ne_of_gt hR)]
      ring
  rw [hpre]
  rw [if_neg]
  have hdot : (-dirVec (θ + Real.pi / 6)).dot (HEX_CENTER -
      ((HEX_CENTER + R • dirVec θ) + (HEX_CENTER + R • dirVec (θ + Real.pi / 3)))
        * (0.5 : ℝ))
      = R * (Real.sqrt 3 / 2) := by
    simp only [Vec2.dot, Vec2.neg_x, Vec2.neg_y, Vec2.add_x, Vec2.add_y, Vec2.sub_x,
      Vec2.sub_y, Vec2.smul_x, Vec2.smul_y, Vec2.mulR_x, Vec2.mulR_y, dirVec,
      Real.cos_add, Real.sin_add, Real.cos_pi_div_three, Real.sin_pi_div_three,
      Real.cos_pi_div_six, Real.sin_pi_div_six]
    linear_combination (R * Real.sqrt 3 / 2) * hsc
  rw [hdot]
  have h3 := sqrt3_bounds.1
  intro hcon
  nlinarith

/-- Signed distance of a point from a hexagon edge along the oriented normal:
the apothem `R * √3 / 2` minus the component of the point's offset from the
container center along the outward edge direction. -/
theorem hex_edgeDist_eval (R θ : ℝ) (hR : 0 < R) (p : Vec2) :
    edgeDist (HEX_CENTER + R • dirVec θ) (HEX_CENTER + R • dirVec (θ + Real.pi / 3)) p
      = R * (Real.sqrt 3 / 2) - (p - HEX_CENTER).dot (dirVec (θ + Real.pi / 6)) := by
  have hsc := Real.sin_sq_add_cos_sq θ
  rw [edgeDist, hex_orientedNormal R θ hR]
  simp only [Vec2.dot, Vec2.neg_x, Vec2.neg_y, Vec2.add_x, Vec2.add_y, Vec2.sub_x,
    Vec2.sub_y, Vec2.smul_x, Vec2.smul_y, dirVec, Real.cos_add, Real.sin_add,
    Real.cos_pi_div_six, Real.sin_pi_div_six]
  linear_combination (R * Real.sqrt 3 / 2) * hsc

theorem dirVec_add_two_pi (x : ℝ) : dirVec (x + 2 * Real.pi) = dirVec x := by
  ext
  · simp [dirVec, Real.cos_add_two_pi]
  · simp [dirVec, Real.sin_add_two_pi]

/-- Vertex `i` of the hexagon in polar form. -/
theorem hexagon_vertices_getD (c : Vec2) (R a : ℝ) (i : ℕ) (hi : i < 6) :
    (hexagon_vertices c R a).getD i 0
      = c + R • dirVec (a + (i * (2 * Real.pi)) / 6) := by
  interval_cases i <;> rfl

/-- The endpoints of edge `i` of the hexagon, as used by `resolve_collision`:
vertex `i` at polar angle `θ i := a + i * 2π/6` and vertex `(i+1) % 6` at
polar angle `θ i + π/3` (modulo one full turn for the wrapping edge). -/
theorem hexagon_pair (c : Vec2) (R a : ℝ) (i : ℕ) (hi : i < 6) :
    (hexagon_vertices c R a).getD i 0
        = c + R • dirVec (a + (i * (2 * Real.pi)) / 6) ∧
    (hexagon_vertices c R a).getD ((i + 1) % 6) 0
        = c + R • dirVec ((a + (i * (2 * Real.pi)) / 6) + Real.pi / 3) := by
  refine ⟨hexagon_vertices_getD c R a i hi, ?_⟩
  interval_cases i
  · rw [show ((0 + 1) % 6 : ℕ) = 1 from rfl, hexagon_vertices_getD c R a 1 (by norm_num)]
    congr 1
    push_cast
    ring
  · rw [show ((1 + 1) % 6 : ℕ) = 2 from rfl, hexagon_vertices_getD c R a 2 (by norm_num)]
    congr 1
    push_cast
    ring
  · rw [show ((2 + 1) % 6 : ℕ) = 3 from rfl, hexagon_vertices_getD c R a 3 (by norm_num)]
    congr 1
    push_cast
    ring
  · rw [show ((3 + 1) % 6 : ℕ) = 4 from rfl, hexagon_vertices_getD c R a 4 (by norm_num)]
    congr 1
    push_cast
    ring
  · rw [show ((4 + 1) % 6 : ℕ) = 5 from rfl, hexagon_vertices_getD c R a 5 (by norm_num)]
    congr 1
    push_cast
    ring
  · rw [show ((5 + 1) % 6 : ℕ) = 0 from rfl, hexagon_vertices_getD c R a 0 (by norm_num)]
    rw [show ((a + ((5:ℕ) * (2 * Real.pi)) / 6) + Real.pi / 3)
        = (a + ((0:ℕ) * (2 * Real.pi)) / 6) + 2 * Real.pi by push_cast; ring]
    rw [dirVec_add_two_pi]

/-- Squared length of the edge perpendicular at index level. -/
theorem hexagon_edge_lengthSq_idx (R a : ℝ) (i : ℕ) (hi : i < 6) :
    Vec2.lengthSq
      ⟨-(((hexagon_vertices HEX_CENTER R a).getD ((i + 1) % 6) 0
          - (hexagon_vertices HEX_CENTER R a).getD i 0).y),
       ((hexagon_vertices HEX_CENTER R a).getD ((i + 1) % 6) 0
          - (hexagon_vertices HEX_CENTER R a).getD i 0).x⟩ = R ^ 2 := by
  obtain ⟨h1, h2⟩ := hexagon_pair HEX_CENTER R a i hi
  rw [h1, h2]
  exact hex_edge_lengthSq R (a + (i * (2 * Real.pi)) / 6)

/-- Oriented normal of hexagon edge `i` at index level. -/
theorem hexagon_orientedNormal_idx (R a : ℝ) (hR : 0 < R) (i : ℕ) (hi : i < 6) :
    orientedNormal ((hexagon_vertices HEX_CENTER R a).getD i 0)
        ((hexagon_vertices HEX_CENTER R a).getD ((i + 1) % 6) 0)
      = -dirVec ((a + (i * (2 * Real.pi)) / 6) + Real.pi / 6) := by
  obtain ⟨h1, h2⟩ := hexagon_pair HEX_CENTER R a i hi
  rw [h1, h2]
  exact hex_orientedNormal R (a + (i * (2 * Real.pi)) / 6) hR

/-- Signed distance from hexagon edge `i` at index level. -/
theorem hexagon_edgeDist_idx (R a : ℝ) (hR : 0 < R) (p : Vec2) (i : ℕ) (hi : i < 6) :
    edgeDist ((hexagon_vertices HEX_CENTER R a).getD i 0)
        ((hexagon_vertices HEX_CENTER R a).getD ((i + 1) % 6) 0) p
      = R * (Real.sqrt 3 / 2)
        - (p - HEX_CENTER).dot (dirVec ((a + (i * (2 * Real.pi)) / 6) + Real.pi / 6)) := by
  obtain ⟨h1, h2⟩ := hexagon_pair HEX_CENTER R a i hi
  rw [h1, h2]
  exact hex_edgeDist_eval R (a + (i * (2 * Real.pi)) / 6) hR p

/-! ## Step lemmas for the collision pass -/

/-- An edge whose distance is at least the ball radius leaves the ball
unchanged. -/
theorem resolve_edge_skip (ω : ℝ) (ball : Ball) (a b : Vec2)
    (hnd : Vec2.lengthSq ⟨-(b - a).y, (b - a).x⟩ ≠ 0)
    (h : BALL_RADIUS - edgeDist a b ball.pos ≤ 0) :
    resolve_edge ω ball a b = ball := by
  rw [resolve_edge_nondeg_eval ω ball a b hnd, if_neg (not_lt.mpr h)]

/-- On a penetrating edge the post-step position is the pushed-out position,
whatever the velocity branch does. -/
theorem resolve_edge_pos_of_pen (ω : ℝ) (ball : Ball) (a b : Vec2)
    (hnd : Vec2.lengthSq ⟨-(b - a).y, (b - a).x⟩ ≠ 0)
    (hpen : 0 < BALL_RADIUS - edgeDist a b ball.pos) :
    (resolve_edge ω ball a b).pos = pushedPos ball a b := by
  rw [resolve_edge_nondeg_eval ω ball a b hnd, if_pos hpen]
  split
  · rfl
  · rfl

/-- After processing a nondegenerate edge, the ball is at distance at least
`BALL_RADIUS` from that edge. -/
theorem resolve_edge_last (ω : ℝ) (ball : Ball) (a b : Vec2)
    (hnd : Vec2.lengthSq ⟨-(b - a).y, (b - a).x⟩ ≠ 0) :
    BALL_RADIUS ≤ edgeDist a b (resolve_edge ω ball a b).pos := by
  by_cases hp : 0 < BALL_RADIUS - edgeDist a b ball.pos
  · rw [resolve_edge_pos_of_pen ω ball a b hnd hp]
    have hn1 : (orientedNormal a b).dot (orientedNormal a b) = 1 :=
      orientedNormal_unit a b hnd
    rw [edgeDist, pushedPos]
    rw [show ball.pos + orientedNormal a b * (BALL_RADIUS - edgeDist a b ball.pos)
          - a = (ball.pos - a)
            + orientedNormal a b * (BALL_RADIUS - edgeDist a b ball.pos) by
      ext <;> simp <;> ring]
    rw [Vec2.add_dot, Vec2.mulR_dot, hn1]
    rw [show (ball.pos - a).dot (orientedNormal a b) = edgeDist a b ball.pos from rfl]
    linarith
  · rw [resolve_edge_skip ω ball a b hnd (by linarith [not_lt.mp hp])]
    linarith [not_lt.mp hp]

/-- Unfolding of `resolve_collision` into its six successive edge steps. -/
theorem resolve_collision_steps (ω : ℝ) (ball : Ball) (verts : List Vec2)
    (ang dt : ℝ) :
    resolve_collision ω ball verts ang dt
      = resolve_edge ω (resolve_edge ω (resolve_edge ω (resolve_edge ω (resolve_edge ω
          (resolve_edge ω ball (verts.getD 0 0) (verts.getD 1 0))
            (verts.getD 1 0) (verts.getD 2 0))
            (verts.getD 2 0) (verts.getD 3 0))
            (verts.getD 3 0) (verts.getD 4 0))
            (verts.getD 4 0) (verts.getD 5 0))
            (verts.getD 5 0) (verts.getD 0 0) := rfl

/-- Cauchy-Schwarz in the plane: the component of `u` along any unit
direction is at most any bound whose square dominates `u`'s squared length. -/
theorem dot_dirVec_le (u : Vec2) (φ B : ℝ) (hB : 0 ≤ B)
    (h : u.lengthSq ≤ B ^ 2) : u.dot (dirVec φ) ≤ B := by
  have hsc := Real.sin_sq_add_cos_sq φ
  simp only [Vec2.dot, Vec2.lengthSq, dirVec] at *
  have hid : (u.x * Real.cos φ + u.y * Real.sin φ) ^ 2
      + (u.x * Real.sin φ - u.y * Real.cos φ) ^ 2
      = (u.x * u.x + u.y * u.y) * (Real.sin φ ^ 2 + Real.cos φ ^ 2) := by ring
  rw [hsc, mul_one] at hid
  nlinarith [sq_nonneg (u.x * Real.sin φ - u.y * Real.cos φ),
    sq_nonneg (u.x * Real.cos φ + u.y * Real.sin φ - B)]

/-- A point whose offset from the container center is short enough is at
distance at least `BALL_RADIUS` from every hexagon edge. -/
theorem hexagon_dist_ge_of_inside (R a : ℝ) (hR : 0 < R) (p : Vec2)
    (i : ℕ) (hi : i < 6)
    (hB : 0 ≤ R * (Real.sqrt 3 / 2) - BALL_RADIUS)
    (h : Vec2.lengthSq (p - HEX_CENTER) ≤ (R * (Real.sqrt 3 / 2) - BALL_RADIUS) ^ 2) :
    BALL_RADIUS ≤ edgeDist ((hexagon_vertices HEX_CENTER R a).getD i 0)
      ((hexagon_vertices HEX_CENTER R a).getD ((i + 1) % 6) 0) p := by
  rw [hexagon_edgeDist_idx R a hR p i hi]
  have := dot_dirVec_le (p - HEX_CENTER)
    ((a + (i * (2 * Real.pi)) / 6) + Real.pi / 6)
    (R * (Real.sqrt 3 / 2) - BALL_RADIUS) hB h
  linarith

/-- If the ball is at distance at least `BALL_RADIUS` from all six edges of
the hexagon, the collision pass is the identity. -/
theorem resolve_collision_hex_id (ω ang dt : ℝ) (ball : Ball) (R a : ℝ)
    (hR : 0 < R)
    (h : ∀ i : ℕ, i < 6 →
      BALL_RADIUS ≤ edgeDist ((hexagon_vertices HEX_CENTER R a).getD i 0)
        ((hexagon_vertices HEX_CENTER R a).getD ((i + 1) % 6) 0) ball.pos) :
    resolve_collision ω ball (hexagon_vertices HEX_CENTER R a) ang dt = ball := by
  have hnd : ∀ i : ℕ, i < 6 → Vec2.lengthSq
      ⟨-(((hexagon_vertices HEX_CENTER R a).getD ((i + 1) % 6) 0
          - (hexagon_vertices HEX_CENTER R a).getD i 0).y),
       ((hexagon_vertices HEX_CENTER R a).getD ((i + 1) % 6) 0
          - (hexagon_vertices HEX_CENTER R a).getD i 0).x⟩ ≠ 0 := by
    intro i hi
    rw [hexagon_edge_lengthSq_idx R a i hi]
    exact (pow_pos hR 2).ne'
  set V := hexagon_vertices HEX_CENTER R a with hV
  have h0 : BALL_RADIUS ≤ edgeDist (V.getD 0 0) (V.getD 1 0) ball.pos :=
    h 0 (by norm_num)
  have h1 : BALL_RADIUS ≤ edgeDist (V.getD 1 0) (V.getD 2 0) ball.pos :=
    h 1 (by norm_num)
  have h2 : BALL_RADIUS ≤ edgeDist (V.getD 2 0) (V.getD 3 0) ball.pos :=
    h 2 (by norm_num)
  have h3 : BALL_RADIUS ≤ edgeDist (V.getD 3 0) (V.getD 4 0) ball.pos :=
    h 3 (by norm_num)
  have h4 : BALL_RADIUS ≤ edgeDist (V.getD 4 0) (V.getD 5 0) ball.pos :=
    h 4 (by norm_num)
  have h5 : BALL_RADIUS ≤ edgeDist (V.getD 5 0) (V.getD 0 0) ball.pos :=
    h 5 (by norm_num)
  have n0 : Vec2.lengthSq ⟨-((V.getD 1 0) - V.getD 0 0).y,
      ((V.getD 1 0) - V.getD 0 0).x⟩ ≠ 0 := hnd 0 (by norm_num)
  have n1 : Vec2.lengthSq ⟨-((V.getD 2 0) - V.getD 1 0).y,
      ((V.getD 2 0) - V.getD 1 0).x⟩ ≠ 0 := hnd 1 (by norm_num)
  have n2 : Vec2.lengthSq ⟨-((V.getD 3 0) - V.getD 2 0).y,
      ((V.getD 3 0) - V.getD 2 0).x⟩ ≠ 0 := hnd 2 (by norm_num)
  have n3 : Vec2.lengthSq ⟨-((V.getD 4 0) - V.getD 3 0).y,
      ((V.getD 4 0) - V.getD 3 0).x⟩ ≠ 0 := hnd 3 (by norm_num)
  have n4 : Vec2.lengthSq ⟨-((V.getD 5 0) - V.getD 4 0).y,
      ((V.getD 5 0) - V.getD 4 0).x⟩ ≠ 0 := hnd 4 (by norm_num)
  have n5 : Vec2.lengthSq ⟨-((V.getD 0 0) - V.getD 5 0).y,
      ((V.getD 0 0) - V.getD 5 0).x⟩ ≠ 0 := hnd 5 (by norm_num)
  rw [resolve_collision_steps]
  rw [resolve_edge_skip ω ball (V.getD 0 0) (V.getD 1 0) n0 (by linarith)]
  rw [resolve_edge_skip ω ball (V.getD 1 0) (V.getD 2 0) n1 (by linarith)]
  rw [resolve_edge_skip ω ball (V.getD 2 0) (V.getD 3 0) n2 (by linarith)]
  rw [resolve_edge_skip ω ball (V.getD 3 0) (V.getD 4 0) n3 (by linarith)]
  rw [resolve_edge_skip ω ball (V.getD 4 0) (V.getD 5 0) n4 (by linarith)]
  rw [resolve_edge_skip ω ball (V.getD 5 0) (V.getD 0 0) n5 (by linarith)]

/-! ## C6: the geometry provider contract -/

/-- C6: the geometry provider returns exactly six vertices; vertex `i` lies at
polar angle `angle + i * 2π/6` around the center; each vertex is at Euclidean
distance `radius` from the center; each next vertex is the previous one
rotated by exactly sixty degrees about the center; and identical inputs give
identical outputs. -/
theorem hexagon_vertices_contract (c : Vec2) (R a : ℝ) (hR : 0 ≤ R) :
    (hexagon_vertices c R a).length = 6 ∧
    (∀ i : Fin 6, (hexagon_vertices c R a).getD (i : ℕ) 0
        = c + R • dirVec (a + ((i : ℕ) * (2 * Real.pi)) / 6)) ∧
    (∀ i : Fin 6, Vec2.length ((hexagon_vertices c R a).getD (i : ℕ) 0 - c) = R) ∧
    (∀ i : Fin 5, (hexagon_vertices c R a).getD ((i : ℕ) + 1) 0 - c
        = rotate60 ((hexagon_vertices c R a).getD (i : ℕ) 0 - c)) ∧
    hexagon_vertices c R a = hexagon_vertices c R a := by
  refine ⟨rfl, fun i => hexagon_vertices_getD c R a i i.isLt, ?_, ?_, rfl⟩
  · intro i
    rw [hexagon_vertices_getD c R a i i.isLt]
    have hsc := Real.sin_sq_add_cos_sq (a + ((i : ℕ) * (2 * Real.pi)) / 6)
    have hv : (c + R • dirVec (a + ((i : ℕ) * (2 * Real.pi)) / 6)) - c
        = ⟨R * Real.cos (a + ((i : ℕ) * (2 * Real.pi)) / 6),
           R * Real.sin (a + ((i : ℕ) * (2 * Real.pi)) / 6)⟩ := by
      ext
      · simp [dirVec]
      · simp [dirVec]
    rw [hv, Vec2.length]
    have hls : Vec2.lengthSq ⟨R * Real.cos (a + ((i : ℕ) * (2 * Real.pi)) / 6),
        R * Real.sin (a + ((i : ℕ) * (2 * Real.pi)) / 6)⟩ = R ^ 2 := by
      simp only [Vec2.lengthSq]
      linear_combination (R ^ 2) * hsc
    rw [hls, Real.sqrt_sq hR]
  · intro i
    have hi1 : ((i : ℕ) + 1) < 6 := by omega
    have hi0 : (i : ℕ) < 6 := by omega
    have hang : (a + (((i : ℕ) + 1 : ℕ) * (2 * Real.pi)) / 6 : ℝ)
        = (a + ((i : ℕ) * (2 * Real.pi)) / 6) + Real.pi / 3 := by
      push_cast
      ring
    rw [hexagon_vertices_getD c R a ((i : ℕ) + 1) hi1,
      hexagon_vertices_getD c R a (i : ℕ) hi0, hang]
    ext
    · simp only [Vec2.sub_x, Vec2.add_x, Vec2.smul_x, Vec2.sub_y, Vec2.add_y,
        Vec2.smul_y, rotate60, dirVec, Real.cos_add, Real.sin_add,
        Real.cos_pi_div_three, Real.sin_pi_div_three]
      ring
    · simp only [Vec2.sub_x, Vec2.add_x, Vec2.smul_x, Vec2.sub_y, Vec2.add_y,
        Vec2.smul_y, rotate60, dirVec, Real.cos_add, Real.sin_add,
        Real.cos_pi_div_three, Real.sin_pi_div_three]
      ring

/-- Witness for C6 at center `(0, 0)`, radius `240`, angle `0`. -/
theorem hexagon_vertices_contract_witness :
    (0 : ℝ) ≤ 240 ∧ (hexagon_vertices ⟨0, 0⟩ 240 0).length = 6 :=
  ⟨by norm_num, (hexagon_vertices_contract ⟨0, 0⟩ 240 0 (by norm_num)).1⟩

/-- Unfolding of `advance` with no events in the free state: integrate gravity, rotate,
resolve collisions. -/
theorem advance_free (g : Vec2) (ω : ℝ) (s : SimState) (dt : ℝ) (mouse : Vec2)
    (h : s.drag.active = false) :
    advance g ω s dt [] mouse
      = { ball := resolve_collision ω ((s.ball.apply_force g dt).integrate dt)
            (hexagon_vertices HEX_CENTER HEX_RADIUS (s.angle + ω * dt))
            (s.angle + ω * dt) dt,
          drag := s.drag, angle := s.angle + ω * dt } := by
  simp only [advance, List.foldl_nil, h, Bool.false_eq_true, if_false]

/-- Unfolding of `advance` with no events in the held state: position override from the
mouse, throw velocity update, rotate, resolve collisions. -/
theorem advance_held (g : Vec2) (ω : ℝ) (s : SimState) (dt : ℝ) (mouse : Vec2)
    (h : s.drag.active = true) :
    advance g ω s dt [] mouse
      = { ball := resolve_collision ω ⟨mouse + s.drag.grab_offset, s.ball.vel⟩
            (hexagon_vertices HEX_CENTER HEX_RADIUS (s.angle + ω * dt))
            (s.angle + ω * dt) dt,
          drag := { s.drag with
            throw_vel := (mouse - s.drag.last_mouse) / max dt 1e-6,
            last_mouse := mouse },
          angle := s.angle + ω * dt } := by
  simp only [advance, List.foldl_nil, h, if_true]

/-! ## C5: semi-implicit Euler integration and Scenario A -/

/-- C5: free-motion integration is semi-implicit Euler (velocity updated from
the force first, position advanced with the updated velocity), and from the
Scenario A state (ball at `(450, 230)`, velocity `(180, 0)`, `dt = 1/60`,
gravity `(0, 900)`, no pointer events) one tick yields velocity `(180, 15)` —
`velocity.y` grows by exactly `15` — and a position at distance at least
`BALL_RADIUS` from every edge of the current hexagon (the ball stays
inside). -/
theorem semi_implicit_euler_scenarioA :
    (∀ (g : Vec2) (dt : ℝ) (b : Ball),
      (b.apply_force g dt).integrate dt
        = ⟨b.pos + (b.vel + g * dt) * dt, b.vel + g * dt⟩) ∧
    (advance GRAVITY ANGULAR_SPEED
        ⟨⟨⟨450, 230⟩, ⟨180, 0⟩⟩, ⟨false, ⟨0, 0⟩, ⟨0, 0⟩, ⟨0, 0⟩⟩, 0⟩
        (1/60) [] ⟨0, 0⟩).ball.vel = ⟨180, 15⟩ ∧
    (advance GRAVITY ANGULAR_SPEED
        ⟨⟨⟨450, 230⟩, ⟨180, 0⟩⟩, ⟨false, ⟨0, 0⟩, ⟨0, 0⟩, ⟨0, 0⟩⟩, 0⟩
        (1/60) [] ⟨0, 0⟩).ball.pos = ⟨453, 230.25⟩ ∧
    (∀ i : Fin 6, BALL_RADIUS ≤ edgeDist
        ((hexagon_vertices HEX_CENTER HEX_RADIUS
            (0 + ANGULAR_SPEED * (1/60))).getD (i : ℕ) 0)
        ((hexagon_vertices HEX_CENTER HEX_RADIUS
            (0 + ANGULAR_SPEED * (1/60))).getD (((i : ℕ) + 1) % 6) 0)
        ((advance GRAVITY ANGULAR_SPEED
            ⟨⟨⟨450, 230⟩, ⟨180, 0⟩⟩, ⟨false, ⟨0, 0⟩, ⟨0, 0⟩, ⟨0, 0⟩⟩, 0⟩
            (1/60) [] ⟨0, 0⟩).ball.pos)) := by
  have hball1 : (((⟨⟨450, 230⟩, ⟨180, 0⟩⟩ : Ball).apply_force GRAVITY
      (1/60)).integrate (1/60)) = (⟨⟨453, 230.25⟩, ⟨180, 15⟩⟩ : Ball) := by
    simp only [Ball.apply_force, Ball.integrate, GRAVITY, BALL_MASS]
    congr 1 <;> ext <;> norm_num
  have h3a := sqrt3_bounds.1
  have h3b := sqrt3_bounds.2
  have hw : Real.sqrt 3 ^ 2 = 3 := Real.sq_sqrt (by norm_num)
  have hRpos : (0:ℝ) < HEX_RADIUS := by rw [HEX_RADIUS]; norm_num
  have hB : 0 ≤ HEX_RADIUS * (Real.sqrt 3 / 2) - BALL_RADIUS := by
    rw [HEX_RADIUS, BALL_RADIUS]; nlinarith
  have hin : Vec2.lengthSq ((⟨453, 230.25⟩ : Vec2) - HEX_CENTER)
      ≤ (HEX_RADIUS * (Real.sqrt 3 / 2) - BALL_RADIUS) ^ 2 := by
    simp only [Vec2.lengthSq, Vec2.sub_x, Vec2.sub_y, HEX_CENTER, HEX_RADIUS,
      BALL_RADIUS]
    nlinarith
  have hdist : ∀ i : ℕ, i < 6 → BALL_RADIUS ≤ edgeDist
      ((hexagon_vertices HEX_CENTER HEX_RADIUS
          (0 + ANGULAR_SPEED * (1/60))).getD i 0)
      ((hexagon_vertices HEX_CENTER HEX_RADIUS
          (0 + ANGULAR_SPEED * (1/60))).getD ((i + 1) % 6) 0)
      ((⟨⟨453, 230.25⟩, ⟨180, 15⟩⟩ : Ball).pos) :=
    fun i hi => hexagon_dist_ge_of_inside HEX_RADIUS
      (0 + ANGULAR_SPEED * (1/60)) hRpos _ i hi hB hin
  have hadv : advance GRAVITY ANGULAR_SPEED
      ⟨⟨⟨450, 230⟩, ⟨180, 0⟩⟩, ⟨false, ⟨0, 0⟩, ⟨0, 0⟩, ⟨0, 0⟩⟩, 0⟩
      (1/60) [] ⟨0, 0⟩
      = { ball := (⟨⟨453, 230.25⟩, ⟨180, 15⟩⟩ : Ball),
          drag := ⟨false, ⟨0, 0⟩, ⟨0, 0⟩, ⟨0, 0⟩⟩,
          angle := 0 + ANGULAR_SPEED * (1/60) } := by
    rw [advance_free GRAVITY ANGULAR_SPEED _ (1/60) ⟨0, 0⟩ rfl]
    congr 1
    rw [show (⟨⟨⟨450, 230⟩, ⟨180, 0⟩⟩, ⟨false, ⟨0, 0⟩, ⟨0, 0⟩, ⟨0, 0⟩⟩,
        0⟩ : SimState).ball = (⟨⟨450, 230⟩, ⟨180, 0⟩⟩ : Ball) from rfl, hball1]
    exact resolve_collision_hex_id ANGULAR_SPEED (0 + ANGULAR_SPEED * (1/60))
      (1/60) _ HEX_RADIUS (0 + ANGULAR_SPEED * (1/60)) hRpos hdist
  refine ⟨?_, ?_, ?_, ?_⟩
  · intro g dt b
    cases b with
    | mk pos vel =>
      simp only [Ball.apply_force, Ball.integrate, BALL_MASS]
      congr 1 <;> ext <;> norm_num
  · rw [hadv]
  · rw [hadv]
  · intro i
    rw [hadv]
    exact hdist (i : ℕ) i.isLt

/-! ### Edge directions of the angle-zero hexagon -/

theorem hexDir_eval0 :
    dirVec ((0 + (((0:ℕ)) * (2 * Real.pi)) / 6) + Real.pi / 6)
      = ⟨Real.sqrt 3 / 2, 1 / 2⟩ := by
  rw [show (0 + (((0:ℕ)) * (2 * Real.pi)) / 6) + Real.pi / 6 = Real.pi / 6 by
    push_cast; ring]
  ext
  · simp [dirVec, Real.cos_pi_div_six]
  · simp [dirVec, Real.sin_pi_div_six]

theorem hexDir_eval1 :
    dirVec ((0 + (((1:ℕ)) * (2 * Real.pi)) / 6) + Real.pi / 6)
      = ⟨0, 1⟩ := by
  rw [show (0 + (((1:ℕ)) * (2 * Real.pi)) / 6) + Real.pi / 6 = Real.pi / 2 by
    push_cast; ring]
  ext
  · simp [dirVec, Real.cos_pi_div_two]
  · simp [dirVec, Real.sin_pi_div_two]

theorem hexDir_eval2 :
    dirVec ((0 + (((2:ℕ)) * (2 * Real.pi)) / 6) + Real.pi / 6)
      = ⟨-(Real.sqrt 3 / 2), 1 / 2⟩ := by
  rw [show (0 + (((2:ℕ)) * (2 * Real.pi)) / 6) + Real.pi / 6
      = Real.pi - Real.pi / 6 by push_cast; ring]
  ext
  · simp [dirVec, Real.cos_pi_sub, Real.cos_pi_div_six]
  · simp [dirVec, Real.sin_pi_sub, Real.sin_pi_div_six]

theorem hexDir_eval3 :
    dirVec ((0 + (((3:ℕ)) * (2 * Real.pi)) / 6) + Real.pi / 6)
      = ⟨-(Real.sqrt 3 / 2), -(1 / 2)⟩ := by
  rw [show (0 + (((3:ℕ)) * (2 * Real.pi)) / 6) + Real.pi / 6
      = Real.pi / 6 + Real.pi by push_cast; ring]
  ext
  · simp [dirVec, Real.cos_add_pi, Real.cos_pi_div_six]
  · simp [dirVec, Real.sin_add_pi, Real.sin_pi_div_six]

theorem hexDir_eval4 :
    dirVec ((0 + (((4:ℕ)) * (2 * Real.pi)) / 6) + Real.pi / 6)
      = ⟨0, -1⟩ := by
  rw [show (0 + (((4:ℕ)) * (2 * Real.pi)) / 6) + Real.pi / 6
      = Real.pi / 2 + Real.pi by push_cast; ring]
  ext
  · simp [dirVec, Real.cos_add_pi, Real.cos_pi_div_two]
  · simp [dirVec, Real.sin_add_pi, Real.sin_pi_div_two]

theorem hexDir_eval5 :
    dirVec ((0 + (((5:ℕ)) * (2 * Real.pi)) / 6) + Real.pi / 6)
      = ⟨Real.sqrt 3 / 2, -(1 / 2)⟩ := by
  rw [show (0 + (((5:ℕ)) * (2 * Real.pi)) / 6) + Real.pi / 6
      = -(Real.pi / 6) + 2 * Real.pi by push_cast; ring]
  ext
  · simp [dirVec, Real.cos_add_two_pi, Real.cos_neg, Real.cos_pi_div_six]
  · simp [dirVec, Real.sin_add_two_pi, Real.sin_neg, Real.sin_pi_div_six]

/-! ## C2: drag override versus collision resolution -/

/-- C2 (amended): on a tick in the held state with no pointer events, if the
target position `mouse + grab_offset` is at distance at least `BALL_RADIUS`
from every edge of the current hexagon, the ball ends the tick exactly at
`mouse + grab_offset` — for every gravity configuration `g`. -/
theorem drag_override_exact_when_clear (g : Vec2) (ω : ℝ) (s : SimState)
    (dt : ℝ) (mouse : Vec2) (hactive : s.drag.active = true)
    (hclear : ∀ i : ℕ, i < 6 → BALL_RADIUS ≤ edgeDist
        ((hexagon_vertices HEX_CENTER HEX_RADIUS (s.angle + ω * dt)).getD i 0)
        ((hexagon_vertices HEX_CENTER HEX_RADIUS (s.angle + ω * dt)).getD
          ((i + 1) % 6) 0)
        (mouse + s.drag.grab_offset)) :
    (advance g ω s dt [] mouse).ball.pos = mouse + s.drag.grab_offset := by
  have hRpos : (0:ℝ) < HEX_RADIUS := by rw [HEX_RADIUS]; norm_num
  rw [advance_held g ω s dt mouse hactive]
  rw [resolve_collision_hex_id ω (s.angle + ω * dt) dt
    ⟨mouse + s.drag.grab_offset, s.ball.vel⟩ HEX_RADIUS (s.angle + ω * dt)
    hRpos hclear]

/-- Witness for C2 (amended): holding the ball with zero offset at the
container center leaves it exactly at the pointer position. -/
theorem drag_override_exact_when_clear_witness :
    ((⟨⟨⟨100, 100⟩, ⟨7, 8⟩⟩, ⟨true, ⟨0, 0⟩, ⟨9, 9⟩, ⟨0, 0⟩⟩, 0⟩ :
        SimState).drag.active = true) ∧
    (advance GRAVITY ANGULAR_SPEED
        ⟨⟨⟨100, 100⟩, ⟨7, 8⟩⟩, ⟨true, ⟨0, 0⟩, ⟨9, 9⟩, ⟨0, 0⟩⟩, 0⟩
        (1/60) [] ⟨450, 350⟩).ball.pos = (⟨450, 350⟩ : Vec2) + ⟨0, 0⟩ := by
  have h3a := sqrt3_bounds.1
  have hRpos : (0:ℝ) < HEX_RADIUS := by rw [HEX_RADIUS]; norm_num
  have hB : 0 ≤ HEX_RADIUS * (Real.sqrt 3 / 2) - BALL_RADIUS := by
    rw [HEX_RADIUS, BALL_RADIUS]; nlinarith
  have hin : Vec2.lengthSq (((⟨450, 350⟩ : Vec2) + ⟨0, 0⟩) - HEX_CENTER)
      ≤ (HEX_RADIUS * (Real.sqrt 3 / 2) - BALL_RADIUS) ^ 2 := by
    simp only [Vec2.lengthSq, Vec2.add_x, Vec2.add_y, Vec2.sub_x, Vec2.sub_y,
      HEX_CENTER]
    nlinarith [sq_nonneg (HEX_RADIUS * (Real.sqrt 3 / 2) - BALL_RADIUS)]
  exact ⟨rfl, drag_override_exact_when_clear GRAVITY ANGULAR_SPEED _ (1/60)
    ⟨450, 350⟩ rfl
    (fun i hi => hexagon_dist_ge_of_inside HEX_RADIUS (0 + ANGULAR_SPEED * (1/60))
      hRpos _ i hi hB hin)⟩

/-- C2 (counterexample): in the held state with the pointer at `(450, 550)`
and zero grab offset, the tick does not end with the ball at
`pointer + grab_offset`: the target penetrates the hexagon wall and collision
resolution moves the ball back inside.  (Physics integration is suppressed
while held, but collision resolution is not.) -/
theorem drag_override_counterexample :
    (advance GRAVITY ANGULAR_SPEED
        ⟨⟨⟨100, 100⟩, ⟨0, 0⟩⟩, ⟨true, ⟨0, 0⟩, ⟨450, 550⟩, ⟨0, 0⟩⟩, 0⟩
        0 [] ⟨450, 550⟩).ball.pos ≠ (⟨450, 550⟩ : Vec2) + ⟨0, 0⟩ := by
  have h3a := sqrt3_bounds.1
  have h3b := sqrt3_bounds.2
  have hRpos : (0:ℝ) < HEX_RADIUS := by rw [HEX_RADIUS]; norm_num
  rw [advance_held GRAVITY ANGULAR_SPEED _ 0 ⟨450, 550⟩ rfl]
  rw [show ((⟨⟨⟨100, 100⟩, ⟨0, 0⟩⟩, ⟨true, ⟨0, 0⟩, ⟨450, 550⟩, ⟨0, 0⟩⟩, 0⟩ :
      SimState).angle + ANGULAR_SPEED * 0) = 0 by
    rw [show ((⟨⟨⟨100, 100⟩, ⟨0, 0⟩⟩, ⟨true, ⟨0, 0⟩, ⟨450, 550⟩, ⟨0, 0⟩⟩, 0⟩ :
      SimState).angle) = 0 from rfl]; ring]
  rw [show ((⟨450, 550⟩ : Vec2) + (⟨⟨⟨100, 100⟩, ⟨0, 0⟩⟩,
      ⟨true, ⟨0, 0⟩, ⟨450, 550⟩, ⟨0, 0⟩⟩, 0⟩ : SimState).drag.grab_offset)
      = (⟨450, 550⟩ : Vec2) by ext <;> simp]
  set V := hexagon_vertices HEX_CENTER HEX_RADIUS 0 with hV
  have n0 : Vec2.lengthSq ⟨-((V.getD 1 0) - V.getD 0 0).y,
      ((V.getD 1 0) - V.getD 0 0).x⟩ = HEX_RADIUS ^ 2 :=
    hexagon_edge_lengthSq_idx HEX_RADIUS 0 0 (by norm_num)
  have n1 : Vec2.lengthSq ⟨-((V.getD 2 0) - V.getD 1 0).y,
      ((V.getD 2 0) - V.getD 1 0).x⟩ = HEX_RADIUS ^ 2 :=
    hexagon_edge_lengthSq_idx HEX_RADIUS 0 1 (by norm_num)
  have n2 : Vec2.lengthSq ⟨-((V.getD 3 0) - V.getD 2 0).y,
      ((V.getD 3 0) - V.getD 2 0).x⟩ = HEX_RADIUS ^ 2 :=
    hexagon_edge_lengthSq_idx HEX_RADIUS 0 2 (by norm_num)
  have n3 : Vec2.lengthSq ⟨-((V.getD 4 0) - V.getD 3 0).y,
      ((V.getD 4 0) - V.getD 3 0).x⟩ = HEX_RADIUS ^ 2 :=
    hexagon_edge_lengthSq_idx HEX_RADIUS 0 3 (by norm_num)
  have n4 : Vec2.lengthSq ⟨-((V.getD 5 0) - V.getD 4 0).y,
      ((V.getD 5 0) - V.getD 4 0).x⟩ = HEX_RADIUS ^ 2 :=
    hexagon_edge_lengthSq_idx HEX_RADIUS 0 4 (by norm_num)
  have n5 : Vec2.lengthSq ⟨-((V.getD 0 0) - V.getD 5 0).y,
      ((V.getD 0 0) - V.getD 5 0).x⟩ = HEX_RADIUS ^ 2 :=
    hexagon_edge_lengthSq_idx HEX_RADIUS 0 5 (by norm_num)
  have hRne : HEX_RADIUS ^ 2 ≠ 0 := (pow_pos hRpos 2).ne'
  have d0 : edgeDist (V.getD 0 0) (V.getD 1 0) (⟨450, 550⟩ : Vec2)
      = HEX_RADIUS * (Real.sqrt 3 / 2) - 100 := by
    have h := hexagon_edgeDist_idx HEX_RADIUS 0 hRpos (⟨450, 550⟩ : Vec2)
      0 (by norm_num)
    rw [hexDir_eval0] at h
    rw [h]
    simp [Vec2.dot, HEX_CENTER]
    ring
  have d1 : edgeDist (V.getD 1 0) (V.getD 2 0) (⟨450, 550⟩ : Vec2)
      = HEX_RADIUS * (Real.sqrt 3 / 2) - 200 := by
    have h := hexagon_edgeDist_idx HEX_RADIUS 0 hRpos (⟨450, 550⟩ : Vec2)
      1 (by norm_num)
    rw [hexDir_eval1] at h
    rw [h]
    simp [Vec2.dot, HEX_CENTER]
    ring
  rw [resolve_collision_steps]
  rw [resolve_edge_skip ANGULAR_SPEED ⟨⟨450, 550⟩, ⟨0, 0⟩⟩
    (V.getD 0 0) (V.getD 1 0) (by rw [n0]; exact hRne)
    (by rw [show ((⟨⟨450, 550⟩, ⟨0, 0⟩⟩ : Ball)).pos = (⟨450, 550⟩ : Vec2)
        from rfl, d0, BALL_RADIUS, HEX_RADIUS]; nlinarith)]
  set B1 := resolve_edge ANGULAR_SPEED ⟨⟨450, 550⟩, ⟨0, 0⟩⟩
    (V.getD 1 0) (V.getD 2 0) with hB1
  have hB1pos : B1.pos = ⟨450, 332 + 120 * Real.sqrt 3⟩ := by
    rw [hB1, resolve_edge_pos_of_pen ANGULAR_SPEED _ _ _ (by rw [n1]; exact hRne)
      (by rw [show ((⟨⟨450, 550⟩, ⟨0, 0⟩⟩ : Ball)).pos = (⟨450, 550⟩ : Vec2)
          from rfl, d1, BALL_RADIUS, HEX_RADIUS]; nlinarith)]
    rw [pushedPos, hexagon_orientedNormal_idx HEX_RADIUS 0 hRpos 1 (by norm_num),
      hexDir_eval1]
    rw [show ((⟨⟨450, 550⟩, ⟨0, 0⟩⟩ : Ball)).pos = (⟨450, 550⟩ : Vec2) from rfl, d1]
    ext
    · simp [BALL_RADIUS, HEX_RADIUS]
    · simp [BALL_RADIUS, HEX_RADIUS]
      ring
  have d2 : edgeDist (V.getD 2 0) (V.getD 3 0) B1.pos
      = HEX_RADIUS * (Real.sqrt 3 / 2) - (60 * Real.sqrt 3 - 9) := by
    have h := hexagon_edgeDist_idx HEX_RADIUS 0 hRpos B1.pos 2 (by norm_num)
    rw [hexDir_eval2] at h
    rw [h, hB1pos]
    simp [Vec2.dot, HEX_CENTER]
    ring
  have d3 : edgeDist (V.getD 3 0) (V.getD 4 0) B1.pos
      = HEX_RADIUS * (Real.sqrt 3 / 2) - (9 - 60 * Real.sqrt 3) := by
    have h := hexagon_edgeDist_idx HEX_RADIUS 0 hRpos B1.pos 3 (by norm_num)
    rw [hexDir_eval3] at h
    rw [h, hB1pos]
    simp [Vec2.dot, HEX_CENTER]
    ring
  have d4 : edgeDist (V.getD 4 0) (V.getD 5 0) B1.pos
      = HEX_RADIUS * (Real.sqrt 3 / 2) - (18 - 120 * Real.sqrt 3) := by
    have h := hexagon_edgeDist_idx HEX_RADIUS 0 hRpos B1.pos 4 (by norm_num)
    rw [hexDir_eval4] at h
    rw [h, hB1pos]
    simp [Vec2.dot, HEX_CENTER]
    ring
  have d5 : edgeDist (V.getD 5 0) (V.getD 0 0) B1.pos
      = HEX_RADIUS * (Real.sqrt 3 / 2) - (9 - 60 * Real.sqrt 3) := by
    have h := hexagon_edgeDist_idx HEX_RADIUS 0 hRpos B1.pos 5 (by norm_num)
    rw [hexDir_eval5] at h
    rw [h, hB1pos]
    simp [Vec2.dot, HEX_CENTER]
    ring
  rw [resolve_edge_skip ANGULAR_SPEED B1 (V.getD 2 0) (V.getD 3 0)
    (by rw [n2]; exact hRne)
    (by rw [d2, BALL_RADIUS, HEX_RADIUS]; nlinarith)]
  rw [resolve_edge_skip ANGULAR_SPEED B1 (V.getD 3 0) (V.getD 4 0)
    (by rw [n3]; exact hRne)
    (by rw [d3, BALL_RADIUS, HEX_RADIUS]; nlinarith)]
  rw [resolve_edge_skip ANGULAR_SPEED B1 (V.getD 4 0) (V.getD 5 0)
    (by rw [n4]; exact hRne)
    (by rw [d4, BALL_RADIUS, HEX_RADIUS]; nlinarith)]
  rw [resolve_edge_skip ANGULAR_SPEED B1 (V.getD 5 0) (V.getD 0 0)
    (by rw [n5]; exact hRne)
    (by rw [d5, BALL_RADIUS, HEX_RADIUS]; nlinarith)]
  rw [hB1pos]
  intro hcon
  have := congrArg Vec2.y hcon
  simp only at this
  nlinarith

/-! ## C3: the containment invariant -/

/-- C3 (counterexample): the single-pass resolver does not guarantee the
containment invariant.  Starting a tick with the ball far outside near the
lower-right vertex, edges 4 and 5 are corrected in turn, and the correction
for edge 5 pushes the ball back out across edge 0: after the tick the signed
distance of the ball's center to edge 0 of the current hexagon is negative
(about `-40.9`), so the ball does not end the tick inside or tangent to the
hexagon for any tolerance `ε ≤ ball_radius`. -/
theorem containment_counterexample :
    edgeDist ((hexagon_vertices HEX_CENTER HEX_RADIUS 0).getD 0 0)
      ((hexagon_vertices HEX_CENTER HEX_RADIUS 0).getD 1 0)
      ((advance GRAVITY ANGULAR_SPEED
          ⟨⟨⟨450 + 395 * Real.sqrt 3, -550⟩, ⟨0, 0⟩⟩,
           ⟨false, ⟨0, 0⟩, ⟨0, 0⟩, ⟨0, 0⟩⟩, 0⟩ 0 [] ⟨0, 0⟩).ball.pos) < 0 := by
  have h3a := sqrt3_bounds.1
  have h3b := sqrt3_bounds.2
  have hw : Real.sqrt 3 ^ 2 = 3 := Real.sq_sqrt (by norm_num)
  have hRpos : (0:ℝ) < HEX_RADIUS := by rw [HEX_RADIUS]; norm_num
  rw [advance_free GRAVITY ANGULAR_SPEED _ 0 ⟨0, 0⟩ rfl]
  rw [show ((⟨⟨⟨450 + 395 * Real.sqrt 3, -550⟩, ⟨0, 0⟩⟩,
      ⟨false, ⟨0, 0⟩, ⟨0, 0⟩, ⟨0, 0⟩⟩, 0⟩ : SimState).angle
        + ANGULAR_SPEED * 0) = 0 by
    rw [show ((⟨⟨⟨450 + 395 * Real.sqrt 3, -550⟩, ⟨0, 0⟩⟩,
      ⟨false, ⟨0, 0⟩, ⟨0, 0⟩, ⟨0, 0⟩⟩, 0⟩ : SimState).angle) = 0 from rfl]
    ring]
  rw [show (((⟨⟨⟨450 + 395 * Real.sqrt 3, -550⟩, ⟨0, 0⟩⟩,
      ⟨false, ⟨0, 0⟩, ⟨0, 0⟩, ⟨0, 0⟩⟩, 0⟩ : SimState).ball.apply_force
        GRAVITY 0).integrate 0)
      = (⟨⟨450 + 395 * Real.sqrt 3, -550⟩, ⟨0, 0⟩⟩ : Ball) by
    simp only [Ball.apply_force, Ball.integrate, GRAVITY, BALL_MASS]
    congr 1 <;> ext <;> norm_num]
  set V := hexagon_vertices HEX_CENTER HEX_RADIUS 0 with hV
  have n0 : Vec2.lengthSq ⟨-((V.getD 1 0) - V.getD 0 0).y,
      ((V.getD 1 0) - V.getD 0 0).x⟩ = HEX_RADIUS ^ 2 :=
    hexagon_edge_lengthSq_idx HEX_RADIUS 0 0 (by norm_num)
  have n1 : Vec2.lengthSq ⟨-((V.getD 2 0) - V.getD 1 0).y,
      ((V.getD 2 0) - V.getD 1 0).x⟩ = HEX_RADIUS ^ 2 :=
    hexagon_edge_lengthSq_idx HEX_RADIUS 0 1 (by norm_num)
  have n2 : Vec2.lengthSq ⟨-((V.getD 3 0) - V.getD 2 0).y,
      ((V.getD 3 0) - V.getD 2 0).x⟩ = HEX_RADIUS ^ 2 :=
    hexagon_edge_lengthSq_idx HEX_RADIUS 0 2 (by norm_num)
  have n3 : Vec2.lengthSq ⟨-((V.getD 4 0) - V.getD 3 0).y,
      ((V.getD 4 0) - V.getD 3 0).x⟩ = HEX_RADIUS ^ 2 :=
    hexagon_edge_lengthSq_idx HEX_RADIUS 0 3 (by norm_num)
  have n4 : Vec2.lengthSq ⟨-((V.getD 5 0) - V.getD 4 0).y,
      ((V.getD 5 0) - V.getD 4 0).x⟩ = HEX_RADIUS ^ 2 :=
    hexagon_edge_lengthSq_idx HEX_RADIUS 0 4 (by norm_num)
  have n5 : Vec2.lengthSq ⟨-((V.getD 0 0) - V.getD 5 0).y,
      ((V.getD 0 0) - V.getD 5 0).x⟩ = HEX_RADIUS ^ 2 :=
    hexagon_edge_lengthSq_idx HEX_RADIUS 0 5 (by norm_num)
  have hRne : HEX_RADIUS ^ 2 ≠ 0 := (pow_pos hRpos 2).ne'
  have q0 : ((⟨⟨450 + 395 * Real.sqrt 3, -550⟩, ⟨0, 0⟩⟩ : Ball)).pos
      = (⟨450 + 395 * Real.sqrt 3, -550⟩ : Vec2) := rfl
  have d0 : edgeDist (V.getD 0 0) (V.getD 1 0)
      (⟨450 + 395 * Real.sqrt 3, -550⟩ : Vec2)
      = HEX_RADIUS * (Real.sqrt 3 / 2) - 142.5 := by
    have h := hexagon_edgeDist_idx HEX_RADIUS 0 hRpos
      (⟨450 + 395 * Real.sqrt 3, -550⟩ : Vec2) 0 (by norm_num)
    rw [hexDir_eval0] at h
    rw [h]
    simp [Vec2.dot, HEX_CENTER]
    linear_combination (395 / 2) * hw
  have d1 : edgeDist (V.getD 1 0) (V.getD 2 0)
      (⟨450 + 395 * Real.sqrt 3, -550⟩ : Vec2)
      = HEX_RADIUS * (Real.sqrt 3 / 2) - (-900) := by
    have h := hexagon_edgeDist_idx HEX_RADIUS 0 hRpos
      (⟨450 + 395 * Real.sqrt 3, -550⟩ : Vec2) 1 (by norm_num)
    rw [hexDir_eval1] at h
    rw [h]
    simp [Vec2.dot, HEX_CENTER]
    ring
  have d2 : edgeDist (V.getD 2 0) (V.getD 3 0)
      (⟨450 + 395 * Real.sqrt 3, -550⟩ : Vec2)
      = HEX_RADIUS * (Real.sqrt 3 / 2) - (-1042.5) := by
    have h := hexagon_edgeDist_idx HEX_RADIUS 0 hRpos
      (⟨450 + 395 * Real.sqrt 3, -550⟩ : Vec2) 2 (by norm_num)
    rw [hexDir_eval2] at h
    rw [h]
    simp [Vec2.dot, HEX_CENTER]
    linear_combination (395 / 2) * hw
  have d3 : edgeDist (V.getD 3 0) (V.getD 4 0)
      (⟨450 + 395 * Real.sqrt 3, -550⟩ : Vec2)
      = HEX_RADIUS * (Real.sqrt 3 / 2) - (-142.5) := by
    have h := hexagon_edgeDist_idx HEX_RADIUS 0 hRpos
      (⟨450 + 395 * Real.sqrt 3, -550⟩ : Vec2) 3 (by norm_num)
    rw [hexDir_eval3] at h
    rw [h]
    simp [Vec2.dot, HEX_CENTER]
    linear_combination (395 / 2) * hw
  have d4 : edgeDist (V.getD 4 0) (V.getD 5 0)
      (⟨450 + 395 * Real.sqrt 3, -550⟩ : Vec2)
      = HEX_RADIUS * (Real.sqrt 3 / 2) - 900 := by
    have h := hexagon_edgeDist_idx HEX_RADIUS 0 hRpos
      (⟨450 + 395 * Real.sqrt 3, -550⟩ : Vec2) 4 (by norm_num)
    rw [hexDir_eval4] at h
    rw [h]
    simp [Vec2.dot, HEX_CENTER]
    ring
  rw [resolve_collision_steps]
  rw [resolve_edge_skip ANGULAR_SPEED _ (V.getD 0 0) (V.getD 1 0)
    (by rw [n0]; exact hRne)
    (by rw [q0, d0, BALL_RADIUS, HEX_RADIUS]; nlinarith)]
  rw [resolve_edge_skip ANGULAR_SPEED _ (V.getD 1 0) (V.getD 2 0)
    (by rw [n1]; exact hRne)
    (by rw [q0, d1, BALL_RADIUS, HEX_RADIUS]; nlinarith)]
  rw [resolve_edge_skip ANGULAR_SPEED _ (V.getD 2 0) (V.getD 3 0)
    (by rw [n2]; exact hRne)
    (by rw [q0, d2, BALL_RADIUS, HEX_RADIUS]; nlinarith)]
  rw [resolve_edge_skip ANGULAR_SPEED _ (V.getD 3 0) (V.getD 4 0)
    (by rw [n3]; exact hRne)
    (by rw [q0, d3, BALL_RADIUS, HEX_RADIUS]; nlinarith)]
  set B4 := resolve_edge ANGULAR_SPEED ⟨⟨450 + 395 * Real.sqrt 3, -550⟩, ⟨0, 0⟩⟩
    (V.getD 4 0) (V.getD 5 0) with hB4
  have hB4pos : B4.pos = ⟨450 + 395 * Real.sqrt 3, 368 - 120 * Real.sqrt 3⟩ := by
    rw [hB4, resolve_edge_pos_of_pen ANGULAR_SPEED _ _ _ (by rw [n4]; exact hRne)
      (by rw [q0, d4, BALL_RADIUS, HEX_RADIUS]; nlinarith)]
    rw [pushedPos, hexagon_orientedNormal_idx HEX_RADIUS 0 hRpos 4 (by norm_num),
      hexDir_eval4]
    rw [q0, d4]
    ext
    · simp [BALL_RADIUS, HEX_RADIUS]
    · simp [BALL_RADIUS, HEX_RADIUS]
      ring
  have d5 : edgeDist (V.getD 5 0) (V.getD 0 0) B4.pos
      = HEX_RADIUS * (Real.sqrt 3 / 2) - (583.5 + 60 * Real.sqrt 3) := by
    have h := hexagon_edgeDist_idx HEX_RADIUS 0 hRpos B4.pos 5 (by norm_num)
    rw [hexDir_eval5] at h
    rw [h, hB4pos]
    simp [Vec2.dot, HEX_CENTER]
    linear_combination (395 / 2) * hw
  set B5 := resolve_edge ANGULAR_SPEED B4 (V.getD 5 0) (V.getD 0 0) with hB5
  have hB5pos : B5.pos
      = ⟨540 + 94.25 * Real.sqrt 3, 668.75 - 150 * Real.sqrt 3⟩ := by
    rw [hB5, resolve_edge_pos_of_pen ANGULAR_SPEED _ _ _ (by rw [n5]; exact hRne)
      (by rw [d5, BALL_RADIUS, HEX_RADIUS]; nlinarith)]
    rw [pushedPos, hexagon_orientedNormal_idx HEX_RADIUS 0 hRpos 5 (by norm_num),
      hexDir_eval5]
    rw [d5, hB4pos]
    ext
    · simp [BALL_RADIUS, HEX_RADIUS]
      linear_combination (30 : ℝ) * hw
    · simp [BALL_RADIUS, HEX_RADIUS]
      ring
  have dfin : edgeDist (V.getD 0 0) (V.getD 1 0) B5.pos
      = HEX_RADIUS * (Real.sqrt 3 / 2) - (300.75 - 30 * Real.sqrt 3) := by
    have h := hexagon_edgeDist_idx HEX_RADIUS 0 hRpos B5.pos 0 (by norm_num)
    rw [hexDir_eval0] at h
    rw [h, hB5pos]
    simp [Vec2.dot, HEX_CENTER]
    linear_combination (94.25 / 2 : ℝ) * hw
  rw [dfin, HEX_RADIUS]
  nlinarith

/-- C3 (amended, provable part): after `resolve_collision`, the ball is at
distance at least `BALL_RADIUS` from the last-processed edge
`(vertices[5], vertices[0])` whenever that edge is nondegenerate; each edge
likewise ends its own processing step nonpenetrating, but a later correction
can re-violate an earlier edge, as the counterexample shows. -/
theorem last_edge_clear_after_resolution (ω ang dt : ℝ) (ball : Ball)
    (verts : List Vec2)
    (hnd : Vec2.lengthSq ⟨-((verts.getD 0 0) - verts.getD 5 0).y,
        ((verts.getD 0 0) - verts.getD 5 0).x⟩ ≠ 0) :
    BALL_RADIUS ≤ edgeDist (verts.getD 5 0) (verts.getD 0 0)
      (resolve_collision ω ball verts ang dt).pos := by
  rw [resolve_collision_steps]
  exact resolve_edge_last ω _ _ _ hnd

/-- Witness for the amended C3 on a rectangle traversed with two degenerate
edges, with a ball started far outside. -/
theorem last_edge_clear_after_resolution_witness :
    Vec2.lengthSq ⟨-((rectVerts.getD 0 0 - rectVerts.getD 5 0).y),
        (rectVerts.getD 0 0 - rectVerts.getD 5 0).x⟩ ≠ 0 ∧
    BALL_RADIUS ≤ edgeDist (rectVerts.getD 5 0) (rectVerts.getD 0 0)
      ((resolve_collision 0 ⟨⟨-3000, 40⟩, ⟨25, -8⟩⟩ rectVerts 0 (1/60)).pos) := by
  have hnd : Vec2.lengthSq ⟨-((rectVerts.getD 0 0 - rectVerts.getD 5 0).y),
      (rectVerts.getD 0 0 - rectVerts.getD 5 0).x⟩ ≠ 0 := by
    show Vec2.lengthSq ⟨-(((⟨250, 150⟩ : Vec2) - ⟨250, 550⟩).y),
        ((⟨250, 150⟩ : Vec2) - ⟨250, 550⟩).x⟩ ≠ 0
    simp [Vec2.lengthSq]
    norm_num
  exact ⟨hnd, last_edge_clear_after_resolution 0 0 (1/60)
    ⟨⟨-3000, 40⟩, ⟨25, -8⟩⟩ rectVerts hnd⟩

/-- Witness for C4: ball at `(450, 167.5)` with velocity `(0, -100)` pressed
`0.5` into the stationary horizontal edge; the hypotheses hold and the
post-resolution normal velocity component is `+85`. -/
theorem restitution_impulse_on_approach_witness :
    Vec2.lengthSq ⟨-(((⟨650, 150⟩ : Vec2) - ⟨250, 150⟩).y),
        ((⟨650, 150⟩ : Vec2) - ⟨250, 150⟩).x⟩ ≠ 0 ∧
    0 < BALL_RADIUS - edgeDist ⟨250, 150⟩ ⟨650, 150⟩
        (Ball.mk ⟨450, 167.5⟩ ⟨0, -100⟩).pos ∧
    ((resolve_edge 0 (Ball.mk ⟨450, 167.5⟩ ⟨0, -100⟩) ⟨250, 150⟩ ⟨650, 150⟩).vel).dot
        (orientedNormal ⟨250, 150⟩ ⟨650, 150⟩) = 85 := by
  have hnd : Vec2.lengthSq ⟨-(((⟨650, 150⟩ : Vec2) - ⟨250, 150⟩).y),
      ((⟨650, 150⟩ : Vec2) - ⟨250, 150⟩).x⟩ ≠ 0 := by
    simp [Vec2.lengthSq]
    norm_num
  have hdist : edgeDist ⟨250, 150⟩ ⟨650, 150⟩
      (Ball.mk ⟨450, 167.5⟩ ⟨0, -100⟩).pos = 17.5 := by
    rw [edgeDist, orientedNormal_bottom]
    simp [Vec2.dot]
    norm_num
  have hpen : 0 < BALL_RADIUS - edgeDist ⟨250, 150⟩ ⟨650, 150⟩
      (Ball.mk ⟨450, 167.5⟩ ⟨0, -100⟩).pos := by
    rw [hdist, BALL_RADIUS]; norm_num
  have hvn : relNormalVel 0 (Ball.mk ⟨450, 167.5⟩ ⟨0, -100⟩)
      ⟨250, 150⟩ ⟨650, 150⟩ = -100 := by
    rw [relNormalVel, wallVelocity_zero, orientedNormal_bottom]
    simp [Vec2.dot]
  exact ⟨hnd, hpen,
    (restitution_impulse_on_approach 0 (Ball.mk ⟨450, 167.5⟩ ⟨0, -100⟩)
      ⟨250, 150⟩ ⟨650, 150⟩ hnd hpen).2.2 rfl hvn⟩

end

